import Mathlib

/-!
Shallow embedding of the go-mirror core (mirror/mirror.go, console/console.go,
config/config.go) and proofs about its reconciliation, confirmation-gate,
equality-test and work-queue behaviour.

Modelling conventions:
* Go `rune` policy flags are `Char` (`'-'` undecided, `'a'` always allow,
  `'x'` never allow), exactly the values the Go code stores through the five
  shared `*rune` pointers of `config.Config`.
* The interactive input stream consumed by `Console.Choice` is a `List Char`;
  an exhausted stream corresponds to the Go loop blocking forever and is
  reported as `blocked`.
* File sizes and modification times are `Int` (Go `int64`; mod-times in
  nanoseconds, `time.Second = 1000000000`).
* `os.Exit`, `panic` and `Frontend.Fatal` are modelled as exceptional results.
-/

namespace Mirror

deriving instance DecidableEq for Except

/-- Result of `os.Stat`: the two fields `filesAreDifferent` reads. -/
structure FileInfo where
  size : Int
  modTime : Int
deriving DecidableEq

/-- Go `time.Second` in nanoseconds. -/
def nsPerSecond : Int := 1000000000

/-- Embedding of the comparison in `filesAreDifferent` (mirror.go:202):
`fi1.Size() != fi2.Size() || fi1.ModTime().Sub(fi2.ModTime()) > time.Second`. -/
def filesAreDifferent (fi1 fi2 : FileInfo) : Bool :=
  fi1.size != fi2.size || fi1.modTime - fi2.modTime > nsPerSecond

/-- A work item: one source/destination pair (config.Config's two path
fields; the five policy pointers are shared state, modelled separately). -/
structure Config where
  source : String
  destination : String
deriving DecidableEq

/-- Embedding of `(*mirror).add` (mirror.go:61): append to the queue tail. -/
def add (queue : List Config) (cfgs : List Config) : List Config :=
  queue ++ cfgs

/-- Embedding of `(*mirror).get` (mirror.go:67): return the head of the
queue and drop it, or report the queue empty without blocking. -/
def get : List Config → Option (Config × List Config)
  | [] => none
  | cfg :: rest => some (cfg, rest)

/-- Repeatedly pop the queue until `get` reports it empty, collecting the
popped items in order. -/
def drain (q : List Config) : List Config :=
  match h : get q with
  | none => []
  | some (c, rest) => c :: drain rest
termination_by q.length
decreasing_by
  cases q with
  | nil => simp [get] at h
  | cons a as =>
    simp only [get, Option.some.injEq, Prod.mk.injEq] at h
    rw [← h.2]
    simp

namespace Console

/-- Embedding of `Console.Choice` (console.go:58): read one character at a
time from the input stream, returning the first one that occurs in the
options string together with the unread remainder; every non-matching
character is rejected and reading continues.  An exhausted stream means the
Go loop would block forever, modelled as `none`. -/
def Choice : List Char → String → Option (Char × List Char)
  | [], _ => none
  | c :: rest, options =>
    if c ∈ options.toList then some (c, rest) else Choice rest options

end Console

/-- Outcome of one call to `(*mirror).allow`. -/
inductive AllowResult where
  | proceed (b : Bool)
  | exited
  | blocked
  | panicked
deriving DecidableEq

/-- The options string passed to `Choice` in `allow` (mirror.go:214). -/
def allowOptions : String := "ynaq"

/-- Embedding of `(*mirror).allow` (mirror.go:205): sticky flag check, then
the prompt and the switch over the returned character, including the dead
case for the never-returned character and the trailing `panic("choice")`.
Returns the result, the new flag value and the unread input. -/
def allow (flag : Char) (input : List Char) :
    AllowResult × Char × List Char :=
  if flag = 'a' then (.proceed true, flag, input)
  else if flag = 'x' then (.proceed false, flag, input)
  else
    match Console.Choice input allowOptions with
    | none => (.blocked, flag, input)
    | some (c, rest) =>
      if c = 'y' then (.proceed true, flag, rest)
      else if c = 'n' then (.proceed false, flag, rest)
      else if c = 'a' then (.proceed true, 'a', rest)
      else if c = 'x' then (.proceed false, 'x', rest)
      else if c = 'q' then (.exited, flag, rest)
      else (.panicked, flag, rest)

/-- A run of `n` consecutive consultations of one policy axis, threading
flag and input through `allow`. -/
def consultN : Char → List Char → Nat → List AllowResult × Char × List Char
  | flag, input, 0 => ([], flag, input)
  | flag, input, n + 1 =>
    match allow flag input with
    | (r, flag1, input1) =>
      match consultN flag1 input1 n with
      | (rs, flag2, input2) => (r :: rs, flag2, input2)

/-- One of the five policy axes of `config.Config` (the five `*rune`
pointers `CreateDir`, `DeleteDir`, `CreateFile`, `OverwriteFile`,
`DeleteFile`). -/
inductive Axis where
  | createDir
  | deleteDir
  | createFile
  | overwriteFile
  | deleteFile
deriving DecidableEq

/-- The five shared policy flags the `*rune` pointers refer to. -/
structure SyncPolicy where
  createDir : Char
  deleteDir : Char
  createFile : Char
  overwriteFile : Char
  deleteFile : Char
deriving DecidableEq

def SyncPolicy.axis : SyncPolicy → Axis → Char
  | p, .createDir => p.createDir
  | p, .deleteDir => p.deleteDir
  | p, .createFile => p.createFile
  | p, .overwriteFile => p.overwriteFile
  | p, .deleteFile => p.deleteFile

def SyncPolicy.setAxis : SyncPolicy → Axis → Char → SyncPolicy
  | p, .createDir, c => { p with createDir := c }
  | p, .deleteDir, c => { p with deleteDir := c }
  | p, .createFile, c => { p with createFile := c }
  | p, .overwriteFile, c => { p with overwriteFile := c }
  | p, .deleteFile, c => { p with deleteFile := c }

/-- Mutable state threaded through a reconciliation step: the shared policy
flags, the interactive input stream, the five aggregate counters of the
`mirror` struct, and a log of the `os.Mkdir` calls issued (path, mode
argument, and whether the call failed - the Go code discards the error). -/
structure MirrorState where
  policy : SyncPolicy
  input : List Char
  dirsCreated : Nat
  dirsDeleted : Nat
  filesCopied : Nat
  filesDeleted : Nat
  filesIdentical : Nat
  mkdirCalls : List (String × Nat × Bool)
deriving DecidableEq

/-- Ways a reconciliation step can fail to return normally: `os.Exit(1)` on
a quit answer, the input stream running dry under `Choice`, the trailing
`panic("choice")`, or `Frontend.Fatal` (which exits the process). -/
inductive Abort where
  | exited
  | blocked
  | panicked
  | fatal (msg : String)
deriving DecidableEq

/-- Consulting `allow` on one axis of the shared policy, threading the
mirror state. -/
def allowAxis (ax : Axis) (st : MirrorState) :
    Except Abort (Bool × MirrorState) :=
  match allow (st.policy.axis ax) st.input with
  | (AllowResult.proceed b, flag1, input1) =>
      .ok (b, { st with policy := st.policy.setAxis ax flag1, input := input1 })
  | (AllowResult.exited, _, _) => .error .exited
  | (AllowResult.blocked, _, _) => .error .blocked
  | (AllowResult.panicked, _, _) => .error .panicked

/-- The filesystem a reconciliation step observes: an association list of
stat results, and the set of paths for which `os.Mkdir` fails. -/
structure Fs where
  stats : List (String × FileInfo)
  mkdirFailures : List String
deriving DecidableEq

def Fs.stat (fs : Fs) (path : String) : Option FileInfo :=
  fs.stats.lookup path

def Fs.mkdirFails (fs : Fs) (path : String) : Bool :=
  fs.mkdirFailures.contains path

/-- Model of `filepath.Join` for the two-argument calls in mirror.go. -/
def joinPath (dir name : String) : String := dir ++ "/" ++ name

/-- One entry of an `os.ReadDir` listing: the fields the code reads
(`Name()`, `IsDir()`, and the `fs.FileMode` behind `Type()`/`Perm()`). -/
structure DirEntry where
  name : String
  isDir : Bool
  mode : Nat
deriving DecidableEq

/-- A name-keyed directory mapping (one of the two maps `readDir` builds);
the value is the entry's `fs.FileMode`. -/
abbrev Snapshot := List (String × Nat)

/-- The partition a successful `readDir` builds: each listed entry goes
into the directory map when `IsDir()` holds and into the file map
otherwise (the Go maps are unordered, so the relative order of the
association lists is immaterial). -/
def partitionEntries : List DirEntry → Snapshot × Snapshot
  | [] => ([], [])
  | e :: rest =>
    if e.isDir then
      ((e.name, e.mode) :: (partitionEntries rest).1, (partitionEntries rest).2)
    else
      ((partitionEntries rest).1, (e.name, e.mode) :: (partitionEntries rest).2)

/-- Embedding of `readDir` (mirror.go:231): list the directory (a listing
of `none` is an `os.ReadDir` error) and partition the entries into the
directory map and the file map. -/
def readDir : Option (List DirEntry) → Except String (Snapshot × Snapshot)
  | none => .error "read error"
  | some entries => .ok (partitionEntries entries)

/-- Go `fs.ModeDir`. -/
def ModeDir : Nat := 2 ^ 31
/-- Go `fs.ModeSymlink`. -/
def ModeSymlink : Nat := 2 ^ 27
/-- Go `fs.ModeDevice`. -/
def ModeDevice : Nat := 2 ^ 26
/-- Go `fs.ModeNamedPipe`. -/
def ModeNamedPipe : Nat := 2 ^ 25
/-- Go `fs.ModeSocket`. -/
def ModeSocket : Nat := 2 ^ 24
/-- Go `fs.ModeCharDevice`. -/
def ModeCharDevice : Nat := 2 ^ 21
/-- Go `fs.ModeIrregular`. -/
def ModeIrregular : Nat := 2 ^ 19
/-- Go `fs.ModeType`: the mask of all type bits. -/
def ModeType : Nat :=
  ModeDir ||| ModeSymlink ||| ModeNamedPipe ||| ModeSocket |||
    ModeDevice ||| ModeCharDevice ||| ModeIrregular

/-- Go `FileMode.Type()`: the mode masked to its type bits. -/
def fileModeType (m : Nat) : Nat := m &&& ModeType

/-- Go `FileMode.Perm()`: the mode masked to its permission bits. -/
def fileModePerm (m : Nat) : Nat := m &&& 0o777

/-- The mode argument the code passes to `os.Mkdir` (mirror.go:147):
`inf.Type().Perm()` applied to the source entry's mode. -/
def mkdirMode (mode : Nat) : Nat := fileModePerm (fileModeType mode)

/-- Embedding of `(*mirror).filesAreDifferent` (mirror.go:193) including
the two `os.Stat` calls, whose failure is fatal. -/
def filesAreDifferentM (fs : Fs) (path1 path2 : String) : Except Abort Bool :=
  match fs.stat path1 with
  | none => .error (.fatal ("Cannot get file info for " ++ path1))
  | some fi1 =>
    match fs.stat path2 with
    | none => .error (.fatal ("Cannot get file info for " ++ path2))
    | some fi2 => .ok (filesAreDifferent fi1 fi2)

/-- The child pair built for a source subdirectory (mirror.go:150-152). -/
def mkSub (cfg : Config) (dirName : String) : Config :=
  { source := joinPath cfg.source dirName,
    destination := joinPath cfg.destination dirName }

/-- The body of the source-directories loop (mirror.go:140-154) for one
entry: if the name is missing from the destination, consult the
`createDir` gate; a denial skips the entry entirely (the `continue`),
otherwise the destination directory is created - the `os.Mkdir` error is
discarded - and the entry is counted; in the remaining cases the child
pair is produced. -/
def sourceDirStep (fs : Fs) (cfg : Config) (dDirs : Snapshot)
    (st : MirrorState) (dirName : String) (mode : Nat) :
    Except Abort (Option Config × MirrorState) :=
  if (dDirs.lookup dirName).isSome then
    .ok (some (mkSub cfg dirName), st)
  else
    match allowAxis .createDir st with
    | .error a => .error a
    | .ok (false, st1) => .ok (none, st1)
    | .ok (true, st1) =>
      .ok (some (mkSub cfg dirName),
        { st1 with
          mkdirCalls := st1.mkdirCalls ++
            [(joinPath cfg.destination dirName, mkdirMode mode,
              fs.mkdirFails (joinPath cfg.destination dirName))],
          dirsCreated := st1.dirsCreated + 1 })

/-- The source-directories loop of `compareSourceWithDestination`. -/
def sourceDirsLoop (fs : Fs) (cfg : Config) (dDirs : Snapshot) :
    Snapshot → MirrorState → Except Abort (List Config × MirrorState)
  | [], st => .ok ([], st)
  | (dirName, mode) :: rest, st =>
    match sourceDirStep fs cfg dDirs st dirName mode with
    | .error a => .error a
    | .ok (sub?, st1) =>
      match sourceDirsLoop fs cfg dDirs rest st1 with
      | .error a => .error a
      | .ok (subs, st2) => .ok (sub?.toList ++ subs, st2)

/-- The body of the destination-directories loop (mirror.go:156-163) for
one destination directory name. -/
def deleteDirStep (sDirs : Snapshot) (st : MirrorState) (dst : String) :
    Except Abort (Option String × MirrorState) :=
  if (sDirs.lookup dst).isSome then .ok (none, st)
  else
    match allowAxis .deleteDir st with
    | .error a => .error a
    | .ok (false, st1) => .ok (none, st1)
    | .ok (true, st1) => .ok (some dst, st1)

/-- The destination-directories loop of `compareSourceWithDestination`. -/
def deleteDirsLoop (sDirs : Snapshot) :
    Snapshot → MirrorState → Except Abort (List String × MirrorState)
  | [], st => .ok ([], st)
  | (dst, _) :: rest, st =>
    match deleteDirStep sDirs st dst with
    | .error a => .error a
    | .ok (d?, st1) =>
      match deleteDirsLoop sDirs rest st1 with
      | .error a => .error a
      | .ok (ds, st2) => .ok (d?.toList ++ ds, st2)

/-- The body of the destination-files loop (mirror.go:165-172) for one
destination file name. -/
def deleteFileStep (sFiles : Snapshot) (st : MirrorState) (dst : String) :
    Except Abort (Option String × MirrorState) :=
  if (sFiles.lookup dst).isSome then .ok (none, st)
  else
    match allowAxis .deleteFile st with
    | .error a => .error a
    | .ok (false, st1) => .ok (none, st1)
    | .ok (true, st1) => .ok (some dst, st1)

/-- The destination-files loop of `compareSourceWithDestination`. -/
def deleteFilesLoop (sFiles : Snapshot) :
    Snapshot → MirrorState → Except Abort (List String × MirrorState)
  | [], st => .ok ([], st)
  | (dst, _) :: rest, st =>
    match deleteFileStep sFiles st dst with
    | .error a => .error a
    | .ok (d?, st1) =>
      match deleteFilesLoop sFiles rest st1 with
      | .error a => .error a
      | .ok (ds, st2) => .ok (d?.toList ++ ds, st2)

/-- The body of the source-files loop (mirror.go:174-189) for one source
file name: absent from the destination, the `createFile` gate decides
whether the file is queued for copying; present and different, the
`overwriteFile` gate is consulted but its answer is discarded and nothing
is queued; present and identical, the `filesIdentical` counter is
incremented. -/
def sourceFileStep (fs : Fs) (cfg : Config) (dFiles : Snapshot)
    (st : MirrorState) (fName : String) :
    Except Abort (Option String × MirrorState) :=
  if (dFiles.lookup fName).isNone then
    match allowAxis .createFile st with
    | .error a => .error a
    | .ok (false, st1) => .ok (none, st1)
    | .ok (true, st1) => .ok (some fName, st1)
  else
    match filesAreDifferentM fs (joinPath cfg.source fName)
        (joinPath cfg.destination fName) with
    | .error a => .error a
    | .ok true =>
      match allowAxis .overwriteFile st with
      | .error a => .error a
      | .ok (_, st1) => .ok (none, st1)
    | .ok false =>
      .ok (none, { st with filesIdentical := st.filesIdentical + 1 })

/-- The source-files loop of `compareSourceWithDestination`. -/
def copyFilesLoop (fs : Fs) (cfg : Config) (dFiles : Snapshot) :
    Snapshot → MirrorState → Except Abort (List String × MirrorState)
  | [], st => .ok ([], st)
  | (fName, _) :: rest, st =>
    match sourceFileStep fs cfg dFiles st fName with
    | .error a => .error a
    | .ok (f?, st1) =>
      match copyFilesLoop fs cfg dFiles rest st1 with
      | .error a => .error a
      | .ok (cps, st2) => .ok (f?.toList ++ cps, st2)

/-- The four lists a reconciliation step returns (mirror.go:126). -/
structure CompareOutput where
  subs : List Config
  delDirs : List String
  delFiles : List String
  cpFiles : List String
deriving DecidableEq

/-- Embedding of `(*mirror).compareSourceWithDestination` (mirror.go:126):
read both directory listings (failure of either read is fatal), then run
the four comparison loops in order and return their outputs. -/
def compareSourceWithDestination (fs : Fs) (cfg : Config)
    (srcEntries dstEntries : Option (List DirEntry)) (st : MirrorState) :
    Except Abort (CompareOutput × MirrorState) :=
  match readDir srcEntries with
  | .error _ => .error (.fatal ("Cannot read directory " ++ cfg.source))
  | .ok (sDirs, sFiles) =>
    match readDir dstEntries with
    | .error _ => .error (.fatal ("Cannot read directory " ++ cfg.destination))
    | .ok (dDirs, dFiles) =>
      match sourceDirsLoop fs cfg dDirs sDirs st with
      | .error a => .error a
      | .ok (subs, st1) =>
        match deleteDirsLoop sDirs dDirs st1 with
        | .error a => .error a
        | .ok (delDirs, st2) =>
          match deleteFilesLoop sFiles dFiles st2 with
          | .error a => .error a
          | .ok (delFiles, st3) =>
            match copyFilesLoop fs cfg dFiles sFiles st3 with
            | .error a => .error a
            | .ok (cpFiles, st4) =>
              .ok ({ subs := subs, delDirs := delDirs,
                     delFiles := delFiles, cpFiles := cpFiles }, st4)

/-- A mirror state with the given policy flags and input stream, all
counters zero and no mkdir calls yet. -/
def mkState (policy : SyncPolicy) (input : List Char) : MirrorState :=
  { policy := policy, input := input,
    dirsCreated := 0, dirsDeleted := 0, filesCopied := 0,
    filesDeleted := 0, filesIdentical := 0, mkdirCalls := [] }

/-- The all-undecided policy (the default, non-force initial state). -/
def askPolicy : SyncPolicy := ⟨'-', '-', '-', '-', '-'⟩

/-- A mirror state with the success flags scrubbed from the mkdir log,
used to state that the outcome of a reconciliation step does not depend on
whether the ignored `os.Mkdir` calls succeeded. -/
def MirrorState.dropMkdirResults (st : MirrorState) : MirrorState :=
  { st with mkdirCalls := st.mkdirCalls.map (fun c => (c.1, c.2.1, false)) }

/-- The filesystem operations `copyFile` and the dispatched delete tasks
can fail on: which paths make `os.Open`, `os.Create`, `io.Copy`,
`os.Stat`, `os.Chtimes`, `os.RemoveAll` and `os.Remove` return an error. -/
structure TaskFs where
  openFailures : List String
  createFailures : List String
  ioCopyFailures : List String
  statFailures : List String
  chtimesFailures : List String
  removeAllFailures : List String
  removeFailures : List String
deriving DecidableEq

/-- Embedding of `copyFile` (mirror.go:248): open the source, create the
destination, copy the bytes, then stat the source and propagate its
modification time; the first failing operation aborts the copy with an
error, which the caller turns into a fatal report. -/
def copyFile (tfs : TaskFs) (src dst : String) : Except String Unit :=
  if tfs.openFailures.contains src then
    .error ("Could not open " ++ src ++ " for reading")
  else if tfs.createFailures.contains dst then
    .error ("Could not create " ++ dst ++ " for writing")
  else if tfs.ioCopyFailures.contains src then
    .error ("error copying file " ++ src)
  else if tfs.statFailures.contains src then
    .error ("get file info for " ++ src)
  else if tfs.chtimesFailures.contains dst then
    .error ("set modification time for " ++ dst)
  else .ok ()

/-- Embedding of the delete-directory task body spawned by
`(*mirror).process` (mirror.go:84-95): `os.RemoveAll` on the joined
destination path, any error reported via `Frontend.Fatal` (which exits the
process, so the counter increment is never reached), otherwise the
`dirsDeleted` counter is incremented. -/
def deleteDirTask (tfs : TaskFs) (cfg : Config) (st : MirrorState)
    (d : String) : Except Abort MirrorState :=
  if tfs.removeAllFailures.contains (joinPath cfg.destination d) then
    .error (.fatal ("Cannot delete dir " ++ joinPath cfg.destination d))
  else .ok { st with dirsDeleted := st.dirsDeleted + 1 }

/-- Embedding of the delete-file task body spawned by `(*mirror).process`
(mirror.go:96-107): `os.Remove` on the joined destination path, any error
fatal, otherwise the `filesDeleted` counter is incremented. -/
def deleteFileTask (tfs : TaskFs) (cfg : Config) (st : MirrorState)
    (f : String) : Except Abort MirrorState :=
  if tfs.removeFailures.contains (joinPath cfg.destination f) then
    .error (.fatal ("Cannot delete file " ++ joinPath cfg.destination f))
  else .ok { st with filesDeleted := st.filesDeleted + 1 }

/-- Embedding of the copy task body spawned by `(*mirror).process`
(mirror.go:108-123): run `copyFile` on the joined paths, any error
reported via `Frontend.Fatal`, otherwise the `filesCopied` counter is
incremented. -/
def copyFileTask (tfs : TaskFs) (cfg : Config) (st : MirrorState)
    (cp : String) : Except Abort MirrorState :=
  match copyFile tfs (joinPath cfg.source cp) (joinPath cfg.destination cp) with
  | .error e => .error (.fatal e)
  | .ok _ => .ok { st with filesCopied := st.filesCopied + 1 }

theorem get_eq_some {q : List Config} {c : Config} {rest : List Config}
    (h : get q = some (c, rest)) : q = c :: rest := by
  cases q with
  | nil => simp [get] at h
  | cons a as =>
    simp only [get, Option.some.injEq, Prod.mk.injEq] at h
    rw [h.1, h.2]

theorem drain_id (q : List Config) : drain q = q := by
  induction q with
  | nil =>
    rw [drain]
    split
    · rfl
    · next c rest h => simp [get] at h
  | cons c rest ih =>
    rw [drain]
    split
    · next h => simp [get] at h
    · next c2 rest2 h =>
      have h2 := get_eq_some h
      injection h2 with hc hr
      subst hc; subst hr
      rw [ih]

theorem Console.Choice_mem {options : String} :
    ∀ {input : List Char} {c : Char} {rest : List Char},
      Choice input options = some (c, rest) → c ∈ options.toList := by
  intro input
  induction input with
  | nil => intro c rest h; simp [Choice] at h
  | cons a as ih =>
    intro c rest h
    by_cases ha : a ∈ options.toList
    · simp only [Choice, if_pos ha, Option.some.injEq, Prod.mk.injEq] at h
      rw [← h.1]; exact ha
    · simp only [Choice, if_neg ha] at h
      exact ih h

theorem allow_sticky {flag : Char} (h : flag = 'a' ∨ flag = 'x')
    (input : List Char) :
    allow flag input = (.proceed (flag == 'a'), flag, input) := by
  rcases h with h | h <;> subst h <;> rfl

/-- C2 counterexample: a pair of equal-size files whose modification times
differ by 1.5 seconds in absolute value - the destination being the newer
one - which the claim calls different but `filesAreDifferent` reports as
identical, because the code compares the signed difference of the two
times, not its absolute value. -/
theorem filesAreDifferent_absolute_cex :
    ((⟨100, 0⟩ : FileInfo).modTime -
        (⟨100, 1500000000⟩ : FileInfo).modTime).natAbs > 1000000000
    ∧ filesAreDifferent ⟨100, 0⟩ ⟨100, 1500000000⟩ = false := by decide

/-- C2 (amended): `filesAreDifferent` reports a pair as different if and
only if the sizes differ or the first file's modification time exceeds the
second's by more than one second - a directional, not absolute, tolerance.
Consequently a 1.5-second difference is different only when the source is
the newer file, and a 0.5-second difference is identical either way. -/
theorem filesAreDifferent_directional :
    (∀ fi1 fi2 : FileInfo,
      filesAreDifferent fi1 fi2 = true ↔
        fi1.size ≠ fi2.size ∨ fi1.modTime - fi2.modTime > nsPerSecond)
    ∧ filesAreDifferent ⟨5, 1500000000⟩ ⟨5, 0⟩ = true
    ∧ filesAreDifferent ⟨5, 0⟩ ⟨5, 1500000000⟩ = false
    ∧ filesAreDifferent ⟨5, 500000000⟩ ⟨5, 0⟩ = false
    ∧ filesAreDifferent ⟨5, 0⟩ ⟨5, 500000000⟩ = false := by
  refine ⟨fun fi1 fi2 => ?_, by decide, by decide, by decide, by decide⟩
  simp [filesAreDifferent, bne_iff_ne, decide_eq_true_iff]

/-- C3: the gate never actually accepts the advertised `none` answer.  The
prompt text offers `x=none` and the switch has a case storing `NeverAllow`,
but the options string handed to `Choice` is `"ynaq"`, so `Choice` rejects
the character `'x'` as invalid and re-prompts: on input consisting only of
`'x'` the gate blocks, and on input `'x'` then `'y'` it returns true with
the axis left undecided instead of setting `NeverAllow` and returning
false. -/
theorem choice_rejects_none_answer :
    Console.Choice ['x'] allowOptions = none
    ∧ allow '-' ['x'] = (AllowResult.blocked, '-', ['x'])
    ∧ allow '-' ['x', 'y'] = (AllowResult.proceed true, '-', [])
    ∧ 'x' ∉ allowOptions.toList := by decide

/-- C7: once a policy axis holds `'a'` (AlwaysAllow) or `'x'` (NeverAllow),
any number of further consultations prompt nobody - the input stream is
untouched - and each returns the sticky decision, with the flag unchanged
for the remainder of the run. -/
theorem policy_sticky {flag : Char} (h : flag = 'a' ∨ flag = 'x') :
    ∀ (n : Nat) (input : List Char),
      consultN flag input n =
        (List.replicate n (AllowResult.proceed (flag == 'a')), flag, input) := by
  intro n
  induction n with
  | zero => intro input; rfl
  | succ n ih =>
    intro input
    rw [consultN, allow_sticky h]
    dsimp only
    rw [ih input]
    rfl

/-- Witness for C7 at concrete inputs: a sticky AlwaysAllow axis answers
true twice without consuming the pending `'n'` answer. -/
theorem policy_sticky_witness :
    consultN 'a' ['n'] 2 =
      (List.replicate 2 (AllowResult.proceed true), 'a', ['n']) := by
  have h := policy_sticky (Or.inl rfl) 2 ['n']
  simpa using h

/-- C8: the work queue is FIFO - draining a queue after appending yields
the old contents followed by the appended ones in order - and `get` on the
empty queue reports emptiness immediately while `get` on a non-empty queue
returns the oldest element and the remainder. -/
theorem queue_fifo :
    (∀ q cfgs : List Config, drain (add q cfgs) = drain q ++ cfgs)
    ∧ get ([] : List Config) = none
    ∧ ∀ (c : Config) (q : List Config), get (c :: q) = some (c, q) := by
  refine ⟨fun q cfgs => ?_, rfl, fun c q => rfl⟩
  rw [drain_id, drain_id]
  rfl

/-- C10: every character `Choice` can return for the options string
`"ynaq"` is one of `'y'`, `'n'`, `'a'`, `'q'`, and consequently `allow`
never reaches the trailing `panic("choice")`, whatever the flag and the
input stream. -/
theorem allow_never_panics :
    (∀ (input : List Char) (c : Char) (rest : List Char),
      Console.Choice input allowOptions = some (c, rest) →
        c = 'y' ∨ c = 'n' ∨ c = 'a' ∨ c = 'q')
    ∧ ∀ (flag : Char) (input : List Char),
        (allow flag input).1 ≠ AllowResult.panicked := by
  have hmem : ∀ (input : List Char) (c : Char) (rest : List Char),
      Console.Choice input allowOptions = some (c, rest) →
        c = 'y' ∨ c = 'n' ∨ c = 'a' ∨ c = 'q' := by
    intro input c rest h
    have hm := Console.Choice_mem h
    rw [show allowOptions.toList = ['y', 'n', 'a', 'q'] from rfl] at hm
    simpa using hm
  refine ⟨hmem, fun flag input => ?_⟩
  unfold allow
  by_cases h1 : flag = 'a'
  · simp [h1]
  by_cases h2 : flag = 'x'
  · simp [h1, h2]
  simp only [if_neg h1, if_neg h2]
  cases hc : Console.Choice input allowOptions with
  | none => simp
  | some p =>
    obtain ⟨c, rest⟩ := p
    rcases hmem input c rest hc with h | h | h | h <;> subst h <;> simp

/-- Witness for C10 at concrete inputs: the character returned for a
stream starting with `'y'` is among the four options, and a concrete gate
call does not panic. -/
theorem allow_never_panics_witness :
    ('y' = 'y' ∨ 'y' = 'n' ∨ 'y' = 'a' ∨ 'y' = 'q')
    ∧ (allow '-' ['q']).1 ≠ AllowResult.panicked :=
  ⟨allow_never_panics.1 ['y'] 'y' [] (by decide),
   allow_never_panics.2 '-' ['q']⟩

theorem sourceDirStep_present {fs : Fs} {cfg : Config} {dDirs : Snapshot}
    {st : MirrorState} {name : String} {mode : Nat}
    (h : (dDirs.lookup name).isSome = true) :
    sourceDirStep fs cfg dDirs st name mode =
      .ok (some (mkSub cfg name), st) := by
  simp [sourceDirStep, h]

theorem sourceDirStep_denied {fs : Fs} {cfg : Config} {dDirs : Snapshot}
    {st st1 : MirrorState} {name : String} {mode : Nat}
    (h : dDirs.lookup name = none)
    (ha : allowAxis .createDir st = .ok (false, st1)) :
    sourceDirStep fs cfg dDirs st name mode = .ok (none, st1) := by
  simp [sourceDirStep, h, ha]

theorem sourceDirStep_allowed {fs : Fs} {cfg : Config} {dDirs : Snapshot}
    {st st1 : MirrorState} {name : String} {mode : Nat}
    (h : dDirs.lookup name = none)
    (ha : allowAxis .createDir st = .ok (true, st1)) :
    sourceDirStep fs cfg dDirs st name mode =
      .ok (some (mkSub cfg name),
        { st1 with
          mkdirCalls := st1.mkdirCalls ++
            [(joinPath cfg.destination name, mkdirMode mode,
              fs.mkdirFails (joinPath cfg.destination name))],
          dirsCreated := st1.dirsCreated + 1 }) := by
  simp [sourceDirStep, h, ha]

/-- C1 counterexample: a source tree with one directory `d`, an empty
destination, and an interactive `no` answer to the `createDir` prompt.
The reconciliation returns no child pair at all - the `continue` skips the
`childPairs` append - although `d` is present in the source snapshot, so
descent does not happen when creation is denied. -/
theorem denied_createDir_skips_descent_cex :
    compareSourceWithDestination ⟨[], []⟩ ⟨"src", "dst"⟩
      (some [⟨"d", true, ModeDir⟩]) (some []) (mkState askPolicy ['n'])
      = .ok (⟨[], [], [], []⟩, mkState askPolicy []) := by decide

/-- C1 (amended): a source directory name becomes a `childPairs` entry
exactly when it already exists in the destination (in which case the gate
is not consulted and the state is untouched) or when it is missing and the
`createDir` gate allows creating it (in which case the directory is
created and counted); when the name is missing and the gate denies, the
entry is skipped entirely and no descent into it happens. -/
theorem sourceDirStep_descent :
    (∀ (fs : Fs) (cfg : Config) (dDirs : Snapshot) (st : MirrorState)
        (name : String) (mode : Nat),
      (dDirs.lookup name).isSome = true →
        sourceDirStep fs cfg dDirs st name mode =
          .ok (some (mkSub cfg name), st))
    ∧ (∀ (fs : Fs) (cfg : Config) (dDirs : Snapshot) (st st1 : MirrorState)
        (name : String) (mode : Nat),
      dDirs.lookup name = none →
      allowAxis .createDir st = .ok (false, st1) →
        sourceDirStep fs cfg dDirs st name mode = .ok (none, st1))
    ∧ (∀ (fs : Fs) (cfg : Config) (dDirs : Snapshot) (st st1 : MirrorState)
        (name : String) (mode : Nat),
      dDirs.lookup name = none →
      allowAxis .createDir st = .ok (true, st1) →
        sourceDirStep fs cfg dDirs st name mode =
          .ok (some (mkSub cfg name),
            { st1 with
              mkdirCalls := st1.mkdirCalls ++
                [(joinPath cfg.destination name, mkdirMode mode,
                  fs.mkdirFails (joinPath cfg.destination name))],
              dirsCreated := st1.dirsCreated + 1 })) :=
  ⟨fun _ _ _ _ _ _ h => sourceDirStep_present h,
   fun _ _ _ _ _ _ _ h ha => sourceDirStep_denied h ha,
   fun _ _ _ _ _ _ _ h ha => sourceDirStep_allowed h ha⟩

/-- Witness for C1 at concrete inputs: a directory already present in the
destination is descended into without consulting the gate, and one whose
creation is denied is skipped. -/
theorem sourceDirStep_descent_witness :
    sourceDirStep ⟨[], []⟩ ⟨"s", "t"⟩ [("d", 0)] (mkState askPolicy []) "d" 0
      = .ok (some (mkSub ⟨"s", "t"⟩ "d"), mkState askPolicy [])
    ∧ sourceDirStep ⟨[], []⟩ ⟨"s", "t"⟩ [] (mkState askPolicy ['n']) "e" 0
      = .ok (none, mkState askPolicy []) :=
  ⟨sourceDirStep_descent.1 _ _ _ _ _ _ (by decide),
   sourceDirStep_descent.2.1 _ _ _ _ _ _ _ (by decide) (by decide)⟩

/-- C5 counterexample: a source directory `d` missing from the destination,
creation allowed, and a filesystem on which the `os.Mkdir` call fails.
The reconciliation does not abort - it returns normally with the failed
call recorded, the directory counted as created, and the child pair
enqueued - so a `CreateFailed` error is not fatal and the operation is
skipped-over rather than terminating the run. -/
theorem mkdir_failure_not_fatal_cex :
    compareSourceWithDestination ⟨[], ["dst/d"]⟩ ⟨"src", "dst"⟩
      (some [⟨"d", true, ModeDir⟩]) (some []) (mkState askPolicy ['y'])
      = .ok (⟨[mkSub ⟨"src", "dst"⟩ "d"], [], [], []⟩,
             { mkState askPolicy [] with
               dirsCreated := 1
               mkdirCalls := [("dst/d", 0, true)] }) := by decide

/-- C5 (amended): an unreadable source or destination directory, a
failing stat, a failing directory or file deletion, and a failing copy -
any of opening, creating, byte-copying or timestamp-setting - are each
fatal to the run via the Fatal path, but a failure of the inline
destination-directory creation is not: the `os.Mkdir` error is discarded,
and the step's outcome - including the child pair produced and the
`dirsCreated` increment - is identical whether the creation succeeded or
failed, differing only in the recorded call log. -/
theorem error_fatality :
    (∀ (fs : Fs) (cfg : Config) (dstEntries : Option (List DirEntry))
        (st : MirrorState),
      compareSourceWithDestination fs cfg none dstEntries st =
        .error (.fatal ("Cannot read directory " ++ cfg.source)))
    ∧ (∀ (fs : Fs) (cfg : Config) (srcEntries : List DirEntry)
        (st : MirrorState),
      compareSourceWithDestination fs cfg (some srcEntries) none st =
        .error (.fatal ("Cannot read directory " ++ cfg.destination)))
    ∧ (∀ (fs : Fs) (path1 path2 : String),
      fs.stat path1 = none →
        filesAreDifferentM fs path1 path2 =
          .error (.fatal ("Cannot get file info for " ++ path1)))
    ∧ (∀ (tfs : TaskFs) (cfg : Config) (st : MirrorState) (d : String),
      tfs.removeAllFailures.contains (joinPath cfg.destination d) = true →
      deleteDirTask tfs cfg st d =
        .error (.fatal ("Cannot delete dir " ++ joinPath cfg.destination d)))
    ∧ (∀ (tfs : TaskFs) (cfg : Config) (st : MirrorState) (f : String),
      tfs.removeFailures.contains (joinPath cfg.destination f) = true →
      deleteFileTask tfs cfg st f =
        .error (.fatal ("Cannot delete file " ++ joinPath cfg.destination f)))
    ∧ (∀ (tfs : TaskFs) (cfg : Config) (st : MirrorState) (cp e : String),
      copyFile tfs (joinPath cfg.source cp) (joinPath cfg.destination cp) =
        .error e →
      copyFileTask tfs cfg st cp = .error (.fatal e))
    ∧ (∀ (tfs : TaskFs) (src dst : String),
      (tfs.openFailures.contains src = true ∨
        tfs.createFailures.contains dst = true ∨
        tfs.ioCopyFailures.contains src = true ∨
        tfs.statFailures.contains src = true ∨
        tfs.chtimesFailures.contains dst = true) →
      ∃ e, copyFile tfs src dst = .error e)
    ∧ (∀ (stats : List (String × FileInfo)) (mf1 mf2 : List String)
        (cfg : Config) (dDirs : Snapshot) (st : MirrorState)
        (name : String) (mode : Nat),
      (sourceDirStep ⟨stats, mf1⟩ cfg dDirs st name mode).map
          (fun r => (r.1, r.2.dropMkdirResults)) =
        (sourceDirStep ⟨stats, mf2⟩ cfg dDirs st name mode).map
          (fun r => (r.1, r.2.dropMkdirResults))) := by
  refine ⟨fun fs cfg dstEntries st => rfl, fun fs cfg srcEntries st => ?_,
    fun fs path1 path2 h => ?_, fun tfs cfg st d h => ?_,
    fun tfs cfg st f h => ?_, fun tfs cfg st cp e h => ?_,
    fun tfs src dst h => ?_,
    fun stats mf1 mf2 cfg dDirs st name mode => ?_⟩
  · cases hp : partitionEntries srcEntries with
    | mk sDirs sFiles => simp [compareSourceWithDestination, readDir, hp]
  · simp [filesAreDifferentM, h]
  · unfold deleteDirTask; rw [if_pos h]
  · unfold deleteFileTask; rw [if_pos h]
  · simp [copyFileTask, h]
  · unfold copyFile
    by_cases h1 : tfs.openFailures.contains src = true
    · exact ⟨"Could not open " ++ src ++ " for reading", by rw [if_pos h1]⟩
    · rw [if_neg h1]
      by_cases h2 : tfs.createFailures.contains dst = true
      · exact ⟨"Could not create " ++ dst ++ " for writing", by rw [if_pos h2]⟩
      · rw [if_neg h2]
        by_cases h3 : tfs.ioCopyFailures.contains src = true
        · exact ⟨"error copying file " ++ src, by rw [if_pos h3]⟩
        · rw [if_neg h3]
          by_cases h4 : tfs.statFailures.contains src = true
          · exact ⟨"get file info for " ++ src, by rw [if_pos h4]⟩
          · rw [if_neg h4]
            by_cases h5 : tfs.chtimesFailures.contains dst = true
            · exact ⟨"set modification time for " ++ dst, by rw [if_pos h5]⟩
            · rcases h with h | h | h | h | h <;> contradiction
  · by_cases h : (dDirs.lookup name).isSome
    · rw [sourceDirStep_present h, sourceDirStep_present h]
    · rw [Option.not_isSome_iff_eq_none] at h
      cases ha : allowAxis .createDir st with
      | error a => simp [sourceDirStep, h, ha]
      | ok p =>
        obtain ⟨b, st1⟩ := p
        cases b with
        | false => rw [sourceDirStep_denied h ha, sourceDirStep_denied h ha]
        | true =>
          rw [sourceDirStep_allowed h ha, sourceDirStep_allowed h ha]
          simp [MirrorState.dropMkdirResults, Except.map, List.map_append]

/-- Witness for C5 at concrete inputs: a failing stat is fatal, a failing
directory deletion is fatal, and a copy whose source cannot be opened is
fatal through the copy task. -/
theorem error_fatality_witness :
    filesAreDifferentM ⟨[], []⟩ "a" "b" =
      .error (.fatal ("Cannot get file info for " ++ "a"))
    ∧ deleteDirTask ⟨[], [], [], [], [], ["t/d"], []⟩ ⟨"s", "t"⟩
        (mkState askPolicy []) "d" =
      .error (.fatal ("Cannot delete dir " ++ joinPath "t" "d"))
    ∧ copyFileTask ⟨["s/f"], [], [], [], [], [], []⟩ ⟨"s", "t"⟩
        (mkState askPolicy []) "f" =
      .error (.fatal ("Could not open " ++ "s/f" ++ " for reading")) :=
  ⟨error_fatality.2.2.1 ⟨[], []⟩ "a" "b" (by decide),
   error_fatality.2.2.2.1 ⟨[], [], [], [], [], ["t/d"], []⟩ ⟨"s", "t"⟩
     (mkState askPolicy []) "d" (by decide),
   error_fatality.2.2.2.2.2.1 ⟨["s/f"], [], [], [], [], [], []⟩ ⟨"s", "t"⟩
     (mkState askPolicy []) "f"
     ("Could not open " ++ "s/f" ++ " for reading") (by decide)⟩

theorem allowAxis_frame {ax : Axis} {st : MirrorState} {b : Bool}
    {st1 : MirrorState} (h : allowAxis ax st = .ok (b, st1)) :
    st1.dirsCreated = st.dirsCreated ∧ st1.dirsDeleted = st.dirsDeleted ∧
    st1.filesCopied = st.filesCopied ∧ st1.filesDeleted = st.filesDeleted ∧
    st1.filesIdentical = st.filesIdentical ∧ st1.mkdirCalls = st.mkdirCalls := by
  unfold allowAxis at h
  cases ha : allow (st.policy.axis ax) st.input with
  | mk r p =>
    obtain ⟨flag1, input1⟩ := p
    rw [ha] at h
    cases r with
    | proceed b2 =>
      simp only [Except.ok.injEq, Prod.mk.injEq] at h
      rw [← h.2]
      exact ⟨rfl, rfl, rfl, rfl, rfl, rfl⟩
    | exited => simp at h
    | blocked => simp at h
    | panicked => simp at h

theorem sourceFileStep_some {fs : Fs} {cfg : Config} {dFiles : Snapshot}
    {st st1 : MirrorState} {fName f2 : String}
    (h : sourceFileStep fs cfg dFiles st fName = .ok (some f2, st1)) :
    f2 = fName ∧ dFiles.lookup fName = none := by
  unfold sourceFileStep at h
  by_cases hn : (dFiles.lookup fName).isNone
  · rw [if_pos hn] at h
    refine ⟨?_, Option.isNone_iff_eq_none.mp hn⟩
    cases ha : allowAxis .createFile st with
    | error a => rw [ha] at h; simp at h
    | ok p =>
      obtain ⟨b, st2⟩ := p
      rw [ha] at h
      cases b with
      | false => simp at h
      | true =>
        simp only [Except.ok.injEq, Prod.mk.injEq, Option.some.injEq] at h
        exact h.1.symm
  · rw [if_neg hn] at h
    cases hd : filesAreDifferentM fs (joinPath cfg.source fName)
        (joinPath cfg.destination fName) with
    | error a => rw [hd] at h; simp at h
    | ok b =>
      rw [hd] at h
      cases b with
      | true =>
        cases ha : allowAxis .overwriteFile st with
        | error a => rw [ha] at h; simp at h
        | ok p => obtain ⟨b2, st2⟩ := p; rw [ha] at h; simp at h
      | false => simp at h

theorem sourceFileStep_present_none {fs : Fs} {cfg : Config}
    {dFiles : Snapshot} {st st1 : MirrorState} {fName : String}
    {r : Option String} (hp : (dFiles.lookup fName).isSome = true)
    (h : sourceFileStep fs cfg dFiles st fName = .ok (r, st1)) :
    r = none := by
  cases r with
  | none => rfl
  | some g =>
    obtain ⟨_, hnone⟩ := sourceFileStep_some h
    rw [hnone] at hp
    simp at hp

theorem sourceFileStep_absent {fs : Fs} {cfg : Config} {dFiles : Snapshot}
    {st st1 : MirrorState} {fName : String} {b : Bool}
    (hn : dFiles.lookup fName = none)
    (ha : allowAxis .createFile st = .ok (b, st1)) :
    sourceFileStep fs cfg dFiles st fName =
      .ok (if b then some fName else none, st1) := by
  unfold sourceFileStep
  rw [if_pos (by simp [hn])]
  rw [ha]
  cases b <;> rfl

theorem sourceDirStep_some {fs : Fs} {cfg : Config} {dDirs : Snapshot}
    {st st1 : MirrorState} {name : String} {mode : Nat} {c : Config}
    (h : sourceDirStep fs cfg dDirs st name mode = .ok (some c, st1)) :
    c = mkSub cfg name := by
  unfold sourceDirStep at h
  by_cases hd : (dDirs.lookup name).isSome
  · rw [if_pos hd] at h
    simp only [Except.ok.injEq, Prod.mk.injEq, Option.some.injEq] at h
    exact h.1.symm
  · rw [if_neg hd] at h
    cases ha : allowAxis .createDir st with
    | error a => rw [ha] at h; simp at h
    | ok p =>
      obtain ⟨b, st2⟩ := p
      rw [ha] at h
      cases b with
      | false => simp at h
      | true =>
        simp only [Except.ok.injEq, Prod.mk.injEq, Option.some.injEq] at h
        exact h.1.symm

theorem deleteDirStep_some {sDirs : Snapshot} {st st1 : MirrorState}
    {dst d : String} (h : deleteDirStep sDirs st dst = .ok (some d, st1)) :
    d = dst ∧ sDirs.lookup dst = none := by
  unfold deleteDirStep at h
  by_cases hs : (sDirs.lookup dst).isSome
  · rw [if_pos hs] at h; simp at h
  · rw [if_neg hs] at h
    refine ⟨?_, Option.not_isSome_iff_eq_none.mp hs⟩
    cases ha : allowAxis .deleteDir st with
    | error a => rw [ha] at h; simp at h
    | ok p =>
      obtain ⟨b, st2⟩ := p
      rw [ha] at h
      cases b with
      | false => simp at h
      | true =>
        simp only [Except.ok.injEq, Prod.mk.injEq, Option.some.injEq] at h
        exact h.1.symm

theorem deleteFileStep_some {sFiles : Snapshot} {st st1 : MirrorState}
    {dst d : String} (h : deleteFileStep sFiles st dst = .ok (some d, st1)) :
    d = dst ∧ sFiles.lookup dst = none := by
  unfold deleteFileStep at h
  by_cases hs : (sFiles.lookup dst).isSome
  · rw [if_pos hs] at h; simp at h
  · rw [if_neg hs] at h
    refine ⟨?_, Option.not_isSome_iff_eq_none.mp hs⟩
    cases ha : allowAxis .deleteFile st with
    | error a => rw [ha] at h; simp at h
    | ok p =>
      obtain ⟨b, st2⟩ := p
      rw [ha] at h
      cases b with
      | false => simp at h
      | true =>
        simp only [Except.ok.injEq, Prod.mk.injEq, Option.some.injEq] at h
        exact h.1.symm

theorem copyFilesLoop_mem {fs : Fs} {cfg : Config} {dFiles : Snapshot} :
    ∀ {sFiles : Snapshot} {st : MirrorState} {out : List String}
      {st2 : MirrorState},
      copyFilesLoop fs cfg dFiles sFiles st = .ok (out, st2) →
      ∀ f ∈ out, (sFiles.lookup f).isSome = true ∧ dFiles.lookup f = none := by
  intro sFiles
  induction sFiles with
  | nil =>
    intro st out st2 h f hf
    simp only [copyFilesLoop, Except.ok.injEq, Prod.mk.injEq] at h
    rw [← h.1] at hf
    simp at hf
  | cons e rest ih =>
    obtain ⟨fName, mode⟩ := e
    intro st out st2 h f hf
    rw [copyFilesLoop] at h
    cases hs : sourceFileStep fs cfg dFiles st fName with
    | error a => rw [hs] at h; simp at h
    | ok p =>
      obtain ⟨f?, st1⟩ := p
      rw [hs] at h
      dsimp only at h
      cases hl : copyFilesLoop fs cfg dFiles rest st1 with
      | error a => rw [hl] at h; simp at h
      | ok q =>
        obtain ⟨cps, st3⟩ := q
        rw [hl] at h
        simp only [Except.ok.injEq, Prod.mk.injEq] at h
        rw [← h.1] at hf
        rcases List.mem_append.mp hf with hf1 | hf2
        · cases f? with
          | none => simp at hf1
          | some g =>
            simp only [Option.toList_some, List.mem_singleton] at hf1
            subst hf1
            obtain ⟨hg, hnone⟩ := sourceFileStep_some hs
            subst hg
            exact ⟨by simp, hnone⟩
        · obtain ⟨h1, h2⟩ := ih hl f hf2
          refine ⟨?_, h2⟩
          simp only [List.lookup_isSome_iff] at h1 ⊢
          obtain ⟨p, hp, hb⟩ := h1
          exact ⟨p, List.mem_cons_of_mem _ hp, hb⟩

theorem deleteFilesLoop_mem {sFiles : Snapshot} :
    ∀ {dFiles : Snapshot} {st : MirrorState} {out : List String}
      {st2 : MirrorState},
      deleteFilesLoop sFiles dFiles st = .ok (out, st2) →
      ∀ f ∈ out, sFiles.lookup f = none ∧ (dFiles.lookup f).isSome = true := by
  intro dFiles
  induction dFiles with
  | nil =>
    intro st out st2 h f hf
    simp only [deleteFilesLoop, Except.ok.injEq, Prod.mk.injEq] at h
    rw [← h.1] at hf
    simp at hf
  | cons e rest ih =>
    obtain ⟨dst, mode⟩ := e
    intro st out st2 h f hf
    rw [deleteFilesLoop] at h
    cases hs : deleteFileStep sFiles st dst with
    | error a => rw [hs] at h; simp at h
    | ok p =>
      obtain ⟨d?, st1⟩ := p
      rw [hs] at h
      dsimp only at h
      cases hl : deleteFilesLoop sFiles rest st1 with
      | error a => rw [hl] at h; simp at h
      | ok q =>
        obtain ⟨ds, st3⟩ := q
        rw [hl] at h
        simp only [Except.ok.injEq, Prod.mk.injEq] at h
        rw [← h.1] at hf
        rcases List.mem_append.mp hf with hf1 | hf2
        · cases d? with
          | none => simp at hf1
          | some g =>
            simp only [Option.toList_some, List.mem_singleton] at hf1
            subst hf1
            obtain ⟨hg, hnone⟩ := deleteFileStep_some hs
            subst hg
            exact ⟨hnone, by simp⟩
        · obtain ⟨h1, h2⟩ := ih hl f hf2
          refine ⟨h1, ?_⟩
          simp only [List.lookup_isSome_iff] at h2 ⊢
          obtain ⟨p, hp, hb⟩ := h2
          exact ⟨p, List.mem_cons_of_mem _ hp, hb⟩

theorem deleteDirsLoop_mem {sDirs : Snapshot} :
    ∀ {dDirs : Snapshot} {st : MirrorState} {out : List String}
      {st2 : MirrorState},
      deleteDirsLoop sDirs dDirs st = .ok (out, st2) →
      ∀ f ∈ out, sDirs.lookup f = none ∧ (dDirs.lookup f).isSome = true := by
  intro dDirs
  induction dDirs with
  | nil =>
    intro st out st2 h f hf
    simp only [deleteDirsLoop, Except.ok.injEq, Prod.mk.injEq] at h
    rw [← h.1] at hf
    simp at hf
  | cons e rest ih =>
    obtain ⟨dst, mode⟩ := e
    intro st out st2 h f hf
    rw [deleteDirsLoop] at h
    cases hs : deleteDirStep sDirs st dst with
    | error a => rw [hs] at h; simp at h
    | ok p =>
      obtain ⟨d?, st1⟩ := p
      rw [hs] at h
      dsimp only at h
      cases hl : deleteDirsLoop sDirs rest st1 with
      | error a => rw [hl] at h; simp at h
      | ok q =>
        obtain ⟨ds, st3⟩ := q
        rw [hl] at h
        simp only [Except.ok.injEq, Prod.mk.injEq] at h
        rw [← h.1] at hf
        rcases List.mem_append.mp hf with hf1 | hf2
        · cases d? with
          | none => simp at hf1
          | some g =>
            simp only [Option.toList_some, List.mem_singleton] at hf1
            subst hf1
            obtain ⟨hg, hnone⟩ := deleteDirStep_some hs
            subst hg
            exact ⟨hnone, by simp⟩
        · obtain ⟨h1, h2⟩ := ih hl f hf2
          refine ⟨h1, ?_⟩
          simp only [List.lookup_isSome_iff] at h2 ⊢
          obtain ⟨p, hp, hb⟩ := h2
          exact ⟨p, List.mem_cons_of_mem _ hp, hb⟩

theorem sourceDirsLoop_mem {fs : Fs} {cfg : Config} {dDirs : Snapshot} :
    ∀ {sDirs : Snapshot} {st : MirrorState} {subs : List Config}
      {st2 : MirrorState},
      sourceDirsLoop fs cfg dDirs sDirs st = .ok (subs, st2) →
      ∀ c ∈ subs, ∃ name,
        (sDirs.lookup name).isSome = true ∧ c = mkSub cfg name := by
  intro sDirs
  induction sDirs with
  | nil =>
    intro st subs st2 h c hc
    simp only [sourceDirsLoop, Except.ok.injEq, Prod.mk.injEq] at h
    rw [← h.1] at hc
    simp at hc
  | cons e rest ih =>
    obtain ⟨dirName, mode⟩ := e
    intro st subs st2 h c hc
    rw [sourceDirsLoop] at h
    cases hs : sourceDirStep fs cfg dDirs st dirName mode with
    | error a => rw [hs] at h; simp at h
    | ok p =>
      obtain ⟨sub?, st1⟩ := p
      rw [hs] at h
      dsimp only at h
      cases hl : sourceDirsLoop fs cfg dDirs rest st1 with
      | error a => rw [hl] at h; simp at h
      | ok q =>
        obtain ⟨subs1, st3⟩ := q
        rw [hl] at h
        simp only [Except.ok.injEq, Prod.mk.injEq] at h
        rw [← h.1] at hc
        rcases List.mem_append.mp hc with hc1 | hc2
        · cases sub? with
          | none => simp at hc1
          | some c2 =>
            simp only [Option.toList_some, List.mem_singleton] at hc1
            subst hc1
            exact ⟨dirName, by simp, sourceDirStep_some hs⟩
        · obtain ⟨name, h1, h2⟩ := ih hl c hc2
          refine ⟨name, ?_, h2⟩
          simp only [List.lookup_isSome_iff] at h1 ⊢
          obtain ⟨p, hp, hb⟩ := h1
          exact ⟨p, List.mem_cons_of_mem _ hp, hb⟩

theorem partition_dir_key {f : String} :
    ∀ {es : List DirEntry},
      (((partitionEntries es).1).lookup f).isSome = true →
      ∃ e ∈ es, e.isDir = true ∧ e.name = f := by
  intro es
  induction es with
  | nil => intro h; simp [partitionEntries] at h
  | cons e rest ih =>
    intro h
    rw [partitionEntries] at h
    by_cases he : e.isDir
    · rw [if_pos he] at h
      dsimp only at h
      simp only [List.lookup_isSome_iff, List.mem_cons] at h
      obtain ⟨p, hp | hp, hb⟩ := h
      · subst hp
        refine ⟨e, List.mem_cons_self e rest, he, ?_⟩
        have : f = e.name := by simpa using hb
        exact this.symm
      · obtain ⟨e2, he2, hd2, hn2⟩ :=
          ih (List.lookup_isSome_iff.mpr ⟨p, hp, hb⟩)
        exact ⟨e2, List.mem_cons_of_mem _ he2, hd2, hn2⟩
    · rw [if_neg he] at h
      dsimp only at h
      obtain ⟨e2, he2, hd2, hn2⟩ := ih h
      exact ⟨e2, List.mem_cons_of_mem _ he2, hd2, hn2⟩

theorem partition_file_key {f : String} :
    ∀ {es : List DirEntry},
      (((partitionEntries es).2).lookup f).isSome = true →
      ∃ e ∈ es, e.isDir = false ∧ e.name = f := by
  intro es
  induction es with
  | nil => intro h; simp [partitionEntries] at h
  | cons e rest ih =>
    intro h
    rw [partitionEntries] at h
    by_cases he : e.isDir
    · rw [if_pos he] at h
      dsimp only at h
      obtain ⟨e2, he2, hd2, hn2⟩ := ih h
      exact ⟨e2, List.mem_cons_of_mem _ he2, hd2, hn2⟩
    · rw [if_neg he] at h
      dsimp only at h
      simp only [List.lookup_isSome_iff, List.mem_cons] at h
      obtain ⟨p, hp | hp, hb⟩ := h
      · subst hp
        refine ⟨e, List.mem_cons_self e rest, by simpa using he, ?_⟩
        have : f = e.name := by simpa using hb
        exact this.symm
      · obtain ⟨e2, he2, hd2, hn2⟩ :=
          ih (List.lookup_isSome_iff.mpr ⟨p, hp, hb⟩)
        exact ⟨e2, List.mem_cons_of_mem _ he2, hd2, hn2⟩

theorem file_key_not_dir_key {es : List DirEntry} {f : String}
    (hn : (es.map DirEntry.name).Nodup)
    (hf : (((partitionEntries es).2).lookup f).isSome = true) :
    ((partitionEntries es).1).lookup f = none := by
  by_contra h
  rw [← ne_eq, Option.ne_none_iff_isSome] at h
  obtain ⟨e1, he1, hd1, hn1⟩ := partition_dir_key h
  obtain ⟨e2, he2, hd2, hn2⟩ := partition_file_key hf
  have he : e1 = e2 :=
    List.inj_on_of_nodup_map hn he1 he2 (by rw [hn1, hn2])
  rw [he, hd2] at hd1
  exact Bool.false_ne_true hd1

theorem mkSub_name_inj {cfg : Config} {a b : String}
    (h : mkSub cfg a = mkSub cfg b) : a = b := by
  have h1 : joinPath cfg.source a = joinPath cfg.source b :=
    congrArg Config.source h
  have h2 := congrArg String.data h1
  simp only [joinPath, String.data_append] at h2
  exact String.ext (List.append_cancel_left h2)

theorem compare_ok_loops {fs : Fs} {cfg : Config} {srcE dstE : List DirEntry}
    {st : MirrorState} {out : CompareOutput} {st4 : MirrorState}
    (h : compareSourceWithDestination fs cfg (some srcE) (some dstE) st =
      .ok (out, st4)) :
    ∃ st1 st2 st3,
      sourceDirsLoop fs cfg (partitionEntries dstE).1
          (partitionEntries srcE).1 st = .ok (out.subs, st1)
      ∧ deleteDirsLoop (partitionEntries srcE).1
          (partitionEntries dstE).1 st1 = .ok (out.delDirs, st2)
      ∧ deleteFilesLoop (partitionEntries srcE).2
          (partitionEntries dstE).2 st2 = .ok (out.delFiles, st3)
      ∧ copyFilesLoop fs cfg (partitionEntries dstE).2
          (partitionEntries srcE).2 st3 = .ok (out.cpFiles, st4) := by
  unfold compareSourceWithDestination at h
  simp only [readDir] at h
  cases hps : partitionEntries srcE with
  | mk sDirs sFiles =>
    cases hpd : partitionEntries dstE with
    | mk dDirs dFiles =>
      rw [hps, hpd] at h
      dsimp only at h
      cases h1 : sourceDirsLoop fs cfg dDirs sDirs st with
      | error a => rw [h1] at h; simp at h
      | ok p1 =>
        obtain ⟨subs, st1⟩ := p1
        rw [h1] at h
        dsimp only at h
        cases h2 : deleteDirsLoop sDirs dDirs st1 with
        | error a => rw [h2] at h; simp at h
        | ok p2 =>
          obtain ⟨delDirs, st2⟩ := p2
          rw [h2] at h
          dsimp only at h
          cases h3 : deleteFilesLoop sFiles dFiles st2 with
          | error a => rw [h3] at h; simp at h
          | ok p3 =>
            obtain ⟨delFiles, st3⟩ := p3
            rw [h3] at h
            dsimp only at h
            cases h4 : copyFilesLoop fs cfg dFiles sFiles st3 with
            | error a => rw [h4] at h; simp at h
            | ok p4 =>
              obtain ⟨cpFiles, st4b⟩ := p4
              rw [h4] at h
              simp only [Except.ok.injEq, Prod.mk.injEq] at h
              obtain ⟨ho, hst⟩ := h
              subst hst
              rw [← ho]
              dsimp only
              exact ⟨st1, st2, st3, rfl, h2, h3, h4⟩

theorem sourceFileStep_overwrite_frame {fs : Fs} {cfg : Config}
    {dFiles : Snapshot} {st st2 : MirrorState} {fName : String}
    {r : Option String} (hp : (dFiles.lookup fName).isSome = true)
    (hd : filesAreDifferentM fs (joinPath cfg.source fName)
      (joinPath cfg.destination fName) = .ok true)
    (hs : sourceFileStep fs cfg dFiles st fName = .ok (r, st2)) :
    r = none ∧ st2.dirsCreated = st.dirsCreated ∧
      st2.dirsDeleted = st.dirsDeleted ∧ st2.filesCopied = st.filesCopied ∧
      st2.filesDeleted = st.filesDeleted ∧
      st2.filesIdentical = st.filesIdentical ∧
      st2.mkdirCalls = st.mkdirCalls := by
  unfold sourceFileStep at hs
  cases ho : dFiles.lookup fName with
  | none => rw [ho] at hp; simp at hp
  | some v =>
    rw [ho] at hs
    simp only [Option.isNone_some, Bool.false_eq_true, if_false] at hs
    rw [hd] at hs
    cases ha : allowAxis .overwriteFile st with
    | error a => rw [ha] at hs; simp at hs
    | ok p =>
      obtain ⟨b, st1⟩ := p
      rw [ha] at hs
      simp only [Except.ok.injEq, Prod.mk.injEq] at hs
      obtain ⟨hr, hst⟩ := hs
      have frame := allowAxis_frame ha
      subst hst
      exact ⟨hr.symm, frame.1, frame.2.1, frame.2.2.1, frame.2.2.2.1,
        frame.2.2.2.2.1, frame.2.2.2.2.2⟩

/-- C4: queuing decisions of the source-files loop.  A source file present
in the destination never reaches `filesToCopy`, whatever the
`overwriteFile` gate answers; a source file absent from the destination is
queued exactly when the `createFile` gate answers true; and every name in
the loop's output is a source file that is absent from the destination. -/
theorem cpFiles_only_absent_created :
    (∀ (fs : Fs) (cfg : Config) (dFiles : Snapshot) (st st1 : MirrorState)
        (fName : String) (r : Option String),
      (dFiles.lookup fName).isSome = true →
      sourceFileStep fs cfg dFiles st fName = .ok (r, st1) → r = none)
    ∧ (∀ (fs : Fs) (cfg : Config) (dFiles : Snapshot) (st st1 : MirrorState)
        (fName : String) (b : Bool),
      dFiles.lookup fName = none →
      allowAxis .createFile st = .ok (b, st1) →
      sourceFileStep fs cfg dFiles st fName =
        .ok (if b then some fName else none, st1))
    ∧ (∀ (fs : Fs) (cfg : Config) (dFiles sFiles : Snapshot)
        (st st2 : MirrorState) (out : List String),
      copyFilesLoop fs cfg dFiles sFiles st = .ok (out, st2) →
      ∀ f ∈ out, (sFiles.lookup f).isSome = true ∧ dFiles.lookup f = none) :=
  ⟨fun _ _ _ _ _ _ _ hp h => sourceFileStep_present_none hp h,
   fun _ _ _ _ _ _ _ hn ha => sourceFileStep_absent hn ha,
   fun _ _ _ _ _ _ _ h f hf => copyFilesLoop_mem h f hf⟩

/-- Witness for C4 at concrete inputs: with an empty destination snapshot
and an interactive `yes`, the file is queued for copying. -/
theorem cpFiles_only_absent_created_witness :
    sourceFileStep ⟨[], []⟩ ⟨"s", "t"⟩ [] (mkState askPolicy ['y']) "f" =
      .ok (if true then some "f" else none, mkState askPolicy []) :=
  cpFiles_only_absent_created.2.1 ⟨[], []⟩ ⟨"s", "t"⟩ []
    (mkState askPolicy ['y']) (mkState askPolicy []) "f" true
    (by decide) (by decide)

/-- C9: a source file present in both snapshots whose equality test says
different contributes nothing: its loop step returns no copy candidate and
leaves the five aggregate counters and the mkdir log unchanged, whatever
the `overwriteFile` gate answers; and over a whole reconciliation of
duplicate-free listings, such a file's name appears in none of the four
output lists. -/
theorem different_file_no_effect :
    (∀ (fs : Fs) (cfg : Config) (dFiles : Snapshot) (st st2 : MirrorState)
        (fName : String) (r : Option String),
      (dFiles.lookup fName).isSome = true →
      filesAreDifferentM fs (joinPath cfg.source fName)
          (joinPath cfg.destination fName) = .ok true →
      sourceFileStep fs cfg dFiles st fName = .ok (r, st2) →
      r = none ∧ st2.dirsCreated = st.dirsCreated ∧
        st2.dirsDeleted = st.dirsDeleted ∧
        st2.filesCopied = st.filesCopied ∧
        st2.filesDeleted = st.filesDeleted ∧
        st2.filesIdentical = st.filesIdentical ∧
        st2.mkdirCalls = st.mkdirCalls)
    ∧ (∀ (fs : Fs) (cfg : Config) (srcE dstE : List DirEntry)
        (st st4 : MirrorState) (out : CompareOutput) (f : String),
      (srcE.map DirEntry.name).Nodup →
      (dstE.map DirEntry.name).Nodup →
      (((partitionEntries srcE).2).lookup f).isSome = true →
      (((partitionEntries dstE).2).lookup f).isSome = true →
      compareSourceWithDestination fs cfg (some srcE) (some dstE) st =
        .ok (out, st4) →
      f ∉ out.delDirs ∧ f ∉ out.delFiles ∧ f ∉ out.cpFiles ∧
        ∀ c ∈ out.subs, c ≠ mkSub cfg f) := by
  constructor
  · exact fun _ _ _ _ _ _ _ hp hd hs => sourceFileStep_overwrite_frame hp hd hs
  · intro fs cfg srcE dstE st st4 out f hns hnd hfs hfd hcmp
    obtain ⟨st1, st2, st3, h1, h2, h3, h4⟩ := compare_ok_loops hcmp
    have hds : ((partitionEntries srcE).1).lookup f = none :=
      file_key_not_dir_key hns hfs
    have hdd : ((partitionEntries dstE).1).lookup f = none :=
      file_key_not_dir_key hnd hfd
    refine ⟨?_, ?_, ?_, ?_⟩
    · intro hmem
      obtain ⟨_, hsome⟩ := deleteDirsLoop_mem h2 f hmem
      rw [hdd] at hsome
      simp at hsome
    · intro hmem
      obtain ⟨hnone, _⟩ := deleteFilesLoop_mem h3 f hmem
      rw [hnone] at hfs
      simp at hfs
    · intro hmem
      obtain ⟨_, hnone⟩ := copyFilesLoop_mem h4 f hmem
      rw [hnone] at hfd
      simp at hfd
    · intro c hc hceq
      obtain ⟨name, hsome, hcm⟩ := sourceDirsLoop_mem h1 c hc
      rw [hceq] at hcm
      have hfn : f = name := mkSub_name_inj hcm
      rw [← hfn] at hsome
      rw [hds] at hsome
      simp at hsome

/-- Witness for C9 at concrete inputs: one file `f` on both sides with
different sizes and a pending `yes` answer; the reconciliation returns
empty output lists not containing `f`. -/
theorem different_file_no_effect_witness :
    "f" ∉ (CompareOutput.mk [] [] [] []).delDirs
    ∧ "f" ∉ (CompareOutput.mk [] [] [] []).delFiles
    ∧ "f" ∉ (CompareOutput.mk [] [] [] []).cpFiles
    ∧ ∀ c ∈ (CompareOutput.mk [] [] [] []).subs,
        c ≠ mkSub ⟨"s", "d"⟩ "f" :=
  different_file_no_effect.2 ⟨[("s/f", ⟨1, 0⟩), ("d/f", ⟨2, 0⟩)], []⟩
    ⟨"s", "d"⟩ [⟨"f", false, 0⟩] [⟨"f", false, 0⟩]
    (mkState askPolicy ['y']) (mkState askPolicy [])
    (CompareOutput.mk [] [] [] []) "f"
    (by decide) (by decide) (by decide) (by decide) (by decide)

/-- C6: the mode argument the code passes to `os.Mkdir` is
`inf.Type().Perm()`, which is zero for every possible file mode - the type
mask and the permission mask share no bits - so the created destination
directory does not inherit the source's permission bits: for a source
directory with mode `ModeDir ||| 0o755` the permission bits are `0o755`
but the mode passed is `0`. -/
theorem mkdirMode_always_zero :
    (∀ mode : Nat, mkdirMode mode = 0)
    ∧ fileModePerm (ModeDir ||| 0o755) = 0o755
    ∧ mkdirMode (ModeDir ||| 0o755) = 0 := by
  refine ⟨fun mode => ?_, by decide, by decide⟩
  unfold mkdirMode fileModePerm fileModeType
  apply Nat.eq_of_testBit_eq
  intro i
  simp only [Nat.testBit_and, Nat.zero_testBit]
  by_cases hi : i < 10
  · have hmt : ModeType.testBit i = false := by
      interval_cases i <;> decide
    simp [hmt]
  · have h777 : Nat.testBit 0o777 i = false := by
      apply Nat.testBit_lt_two_pow
      calc (0o777 : Nat) < 2 ^ 10 := by decide
        _ ≤ 2 ^ i := Nat.pow_le_pow_right (by decide) (Nat.le_of_not_lt hi)
    simp [h777]

end Mirror
